import Mathlib

set_option maxHeartbeats 1000000

/-!
Verification of the ectotrees session-synchronization core: a shallow
embedding of the shared pure mutation library (`shared/mutations.ts`), the
client-side transition applier (`src/hooks/useWorldStates.ts`), the client
delivery/replay layer (`src/hooks/useSession.ts`) and the server message
validator (`server/validation.ts`), together with theorems settling the
stated properties of these components.

Modelling conventions:
* JavaScript millisecond timestamps are modelled as `Int` (every input the
  claims quantify over is an integer count of milliseconds).
* A `WorldStates` record (`Record<number, WorldState>`) is modelled as a
  finitely-supported-by-use function `Int → Option WorldState`; `none`
  models the absence of the key.
* Optional object properties are modelled as `Option` fields; a fresh JS
  object literal corresponds to a structure literal whose omitted fields
  default to `none`.
* Raw (not yet validated) JSON values are modelled by the `JsValue`
  inductive, with JS numbers as `Rat` so that the validator's
  `Number.isInteger` checks are expressible.
-/

namespace Ectotrees

/-- `WorldState.treeStatus` lifecycle enumeration from `shared/types.ts`. -/
inductive TreeStatus where
  | none
  | sapling
  | mature
  | alive
  | dead
deriving DecidableEq, Repr

/-- The `TREE_TYPES` enumeration from `shared/types.ts`. -/
inductive TreeType where
  | sapling
  | mature
  | tree
  | oak
  | willow
  | maple
  | yew
  | magic
  | elder
deriving DecidableEq, Repr

/-- Membership in `ALIVE_TREE_TYPES` from `shared/types.ts` (every tree type
except the generic `sapling` and `mature` markers). -/
def aliveTreeType : TreeType → Bool
  | .tree | .oak | .willow | .maple | .yew | .magic | .elder => true
  | .sapling | .mature => false

/-- `SAPLING_MATURE_MS` from `shared/types.ts` (5 minutes). -/
def SAPLING_MATURE_MS : Int := 5 * 60 * 1000

/-- `ALIVE_DEAD_MS` from `shared/types.ts` (30 minutes). -/
def ALIVE_DEAD_MS : Int := 30 * 60 * 1000

/-- `DEAD_CLEAR_MS` from `shared/types.ts` (10 minutes). -/
def DEAD_CLEAR_MS : Int := 10 * 60 * 1000

/-- The `WorldState` record from `shared/types.ts`. Optional properties are
`Option` fields; omitted fields of a fresh object literal default to `none`. -/
structure WorldState where
  nextSpawnTarget : Option Int := none
  spawnSetAt : Option Int := none
  treeStatus : TreeStatus
  treeType : Option TreeType := none
  treeHint : Option String := none
  treeExactLocation : Option String := none
  treeHealth : Option Int := none
  treeSetAt : Option Int := none
  matureAt : Option Int := none
  deadAt : Option Int := none
deriving DecidableEq, Repr

/-- `WorldStates = Record<number, WorldState>`: world id to state, `none`
modelling the absence of the key. -/
abbrev WorldStates := Int → Option WorldState

/-- `SpawnTreeInfo` from `shared/types.ts`. -/
structure SpawnTreeInfo where
  treeHint : Option String := none
deriving DecidableEq, Repr

/-- `TreeInfoPayload` from `shared/types.ts`. -/
structure TreeInfoPayload where
  treeType : TreeType
  treeHint : String
  treeExactLocation : Option String := none
  treeHealth : Option Int := none
deriving DecidableEq, Repr

/-- `TreeFieldsPayload` from `shared/types.ts`; a `none` field models a key
absent from the partial-update object. -/
structure TreeFieldsPayload where
  treeType : Option TreeType := none
  treeHint : Option String := none
  treeExactLocation : Option String := none
  treeHealth : Option Int := none
deriving DecidableEq, Repr

/-! ### The four transition branches of `applyTransitions`
(`shared/mutations.ts`, lines 4-74). The loop body applies the four `if`
blocks in sequence to each entry; `stepWorld` is that per-entry pipeline. -/

/-- Resolution of the recorded tree type on the sapling-to-mature
transition: `(s.treeType && ALIVE_TREE_TYPES.has(s.treeType)) ? s.treeType :
'mature'`. -/
def resolveMatureType : Option TreeType → TreeType
  | some t => if aliveTreeType t then t else .mature
  | none => .mature

/-- First `if` block of the shared `applyTransitions` loop body:
sapling matures once `now >= treeSetAt + SAPLING_MATURE_MS`. -/
def saplingMatureStep (now : Int) (s : WorldState) : WorldState :=
  match s.treeSetAt with
  | some t =>
    if s.treeStatus = .sapling ∧ t + SAPLING_MATURE_MS ≤ now then
      { s with treeStatus := .mature
               treeType := some (resolveMatureType s.treeType)
               matureAt := some (t + SAPLING_MATURE_MS) }
    else s
  | none => s

/-- Second `if` block: a mature or alive tree dies once
`now >= matureAt + ALIVE_DEAD_MS`. -/
def matureDeadStep (now : Int) (s : WorldState) : WorldState :=
  match s.matureAt with
  | some m =>
    if (s.treeStatus = .mature ∨ s.treeStatus = .alive) ∧ m + ALIVE_DEAD_MS ≤ now then
      { s with treeStatus := .dead
               deadAt := some (m + ALIVE_DEAD_MS)
               nextSpawnTarget := none
               spawnSetAt := none }
    else s
  | none => s

/-- Third `if` block: a dead tree is cleared to the fresh `{ treeStatus:
'none' }` record once `now >= deadAt + DEAD_CLEAR_MS`. -/
def deadClearStep (now : Int) (s : WorldState) : WorldState :=
  match s.deadAt with
  | some d =>
    if s.treeStatus = .dead ∧ d + DEAD_CLEAR_MS ≤ now then
      { treeStatus := .none }
    else s
  | none => s

/-- Fourth `if` block: an elapsed spawn timer converts the entry into a
sapling anchored at the recorded `nextSpawnTarget`. -/
def spawnFireStep (now : Int) (s : WorldState) : WorldState :=
  match s.nextSpawnTarget with
  | some target =>
    if target ≤ now then
      { s with treeStatus := .sapling
               treeType := some .sapling
               treeSetAt := some target
               matureAt := some (target + SAPLING_MATURE_MS)
               nextSpawnTarget := none
               spawnSetAt := none }
    else s
  | none => s

/-- Per-entry body of the shared `applyTransitions` loop: the four `if`
blocks applied in program order. -/
def stepWorld (now : Int) (s : WorldState) : WorldState :=
  spawnFireStep now (deadClearStep now (matureDeadStep now (saplingMatureStep now s)))

/-- `applyTransitions` from `shared/mutations.ts`: every entry is advanced by
the per-entry pipeline; keys are never added or removed (the `changed ?
next : states` return distinguishes references only, not values). -/
def applyTransitions (states : WorldStates) (now : Int) : WorldStates :=
  fun id => (states id).map (stepWorld now)

/-- `applySetSpawnTimer` from `shared/mutations.ts`: replaces the world entry
with a fresh object holding only status, spawn target, set time and hint. -/
def applySetSpawnTimer (states : WorldStates) (worldId : Int) (msFromNow : Int)
    (now : Int) (treeInfo : Option SpawnTreeInfo) : WorldStates :=
  fun id =>
    if id = worldId then
      some { treeStatus := .none
             nextSpawnTarget := some (now + msFromNow)
             spawnSetAt := some now
             treeHint := treeInfo.bind SpawnTreeInfo.treeHint }
    else states id

/-- `applySetTreeInfo` from `shared/mutations.ts`. -/
def applySetTreeInfo (states : WorldStates) (worldId : Int) (info : TreeInfoPayload)
    (now : Int) : WorldStates :=
  let current := (states worldId).getD { treeStatus := .none }
  fun id =>
    if id = worldId then
      some { current with
             treeType := some info.treeType
             treeHint := some info.treeHint
             treeExactLocation := info.treeExactLocation
             treeHealth := info.treeHealth
             treeSetAt := some now
             matureAt := if info.treeType = .sapling then some (now + SAPLING_MATURE_MS) else some now
             treeStatus := if info.treeType = .sapling then .sapling
                           else if info.treeType = .mature then .mature else .alive
             deadAt := none
             nextSpawnTarget := none
             spawnSetAt := none }
    else states id

/-- `applyUpdateTreeFields` from `shared/mutations.ts`: no-op when the world
has no entry; otherwise merges the provided fields (absent fields keep the
current value) and promotes sapling/mature to alive when a concrete tree
type is supplied. -/
def applyUpdateTreeFields (states : WorldStates) (worldId : Int)
    (fields : TreeFieldsPayload) : WorldStates :=
  match states worldId with
  | none => states
  | some current =>
    let nextStatus :=
      match fields.treeType with
      | some t =>
        if aliveTreeType t ∧ (current.treeStatus = .sapling ∨ current.treeStatus = .mature) then
          TreeStatus.alive
        else current.treeStatus
      | none => current.treeStatus
    fun id =>
      if id = worldId then
        some { current with
               treeType := fields.treeType <|> current.treeType
               treeHint := fields.treeHint <|> current.treeHint
               treeExactLocation := fields.treeExactLocation <|> current.treeExactLocation
               treeHealth := fields.treeHealth <|> current.treeHealth
               treeStatus := nextStatus }
      else states id

/-- `applyUpdateHealth` from `shared/mutations.ts`. -/
def applyUpdateHealth (states : WorldStates) (worldId : Int)
    (health : Option Int) : WorldStates :=
  match states worldId with
  | none => states
  | some current =>
    fun id =>
      if id = worldId then some { current with treeHealth := health }
      else states id

/-- `applyMarkDead` from `shared/mutations.ts`: forces dead status with
`deadAt = now` and clears the spawn-timer fields, starting from the current
entry (or the empty record when absent). -/
def applyMarkDead (states : WorldStates) (worldId : Int) (now : Int) : WorldStates :=
  let current := (states worldId).getD { treeStatus := .none }
  fun id =>
    if id = worldId then
      some { current with treeStatus := .dead
                          deadAt := some now
                          nextSpawnTarget := none
                          spawnSetAt := none }
    else states id

/-- `applyClearWorld` from `shared/mutations.ts`: deletes the key. -/
def applyClearWorld (states : WorldStates) (worldId : Int) : WorldStates :=
  fun id => if id = worldId then none else states id

/-! ### Client-side applier (`src/hooks/useWorldStates.ts`, lines 7-74)
The module-local `applyTransitions` of the client hook. Its second and third
`if` blocks are textually identical to the shared ones (`matureDeadStep`,
`deadClearStep`); its first and fourth blocks differ in that they never
write `treeType`. -/

/-- First `if` block of the client applier: matures a sapling without
resolving `treeType`. -/
def clientSaplingMatureStep (now : Int) (s : WorldState) : WorldState :=
  match s.treeSetAt with
  | some t =>
    if s.treeStatus = .sapling ∧ t + SAPLING_MATURE_MS ≤ now then
      { s with treeStatus := .mature
               matureAt := some (t + SAPLING_MATURE_MS) }
    else s
  | none => s

/-- Fourth `if` block of the client applier: fires a spawn timer without
setting `treeType`. -/
def clientSpawnFireStep (now : Int) (s : WorldState) : WorldState :=
  match s.nextSpawnTarget with
  | some target =>
    if target ≤ now then
      { s with treeStatus := .sapling
               treeSetAt := some target
               matureAt := some (target + SAPLING_MATURE_MS)
               nextSpawnTarget := none
               spawnSetAt := none }
    else s
  | none => s

/-- Per-entry pipeline of the client applier. -/
def clientStepWorld (now : Int) (s : WorldState) : WorldState :=
  clientSpawnFireStep now (deadClearStep now (matureDeadStep now (clientSaplingMatureStep now s)))

/-- The client-side `applyTransitions` of `src/hooks/useWorldStates.ts`. -/
def clientApplyTransitions (states : WorldStates) (now : Int) : WorldStates :=
  fun id => (states id).map (clientStepWorld now)

/-- Erasure of the `treeType` field, used to compare the shared and client
appliers field by field. -/
def eraseTreeType (s : WorldState) : WorldState :=
  { s with treeType := none }

/-- Mutual exclusion of a pending spawn and an active tree phase: a set
`nextSpawnTarget` implies `treeStatus = none`, and any status other than
`none` implies `nextSpawnTarget` is unset. -/
def spawnTreeExclusive (w : WorldState) : Prop :=
  (w.nextSpawnTarget.isSome → w.treeStatus = .none) ∧
  (w.treeStatus ≠ .none → w.nextSpawnTarget = none)

instance (w : WorldState) : Decidable (spawnTreeExclusive w) := by
  unfold spawnTreeExclusive; infer_instance

/-- A world map containing a single pending spawn timer for world 1 whose
target time is 0: the input exhibiting that intermediate evaluation of
`applyTransitions` changes the result. -/
def pendingSpawnMap : WorldStates :=
  fun id => if id = 1 then some { treeStatus := .none, nextSpawnTarget := some 0 } else none

/-- A world map containing a single generic sapling for world 1, set at time
0: the input separating the shared and client appliers. -/
def genericSaplingMap : WorldStates :=
  fun id =>
    if id = 1 then some { treeStatus := .sapling, treeType := some .sapling, treeSetAt := some 0 }
    else none

/-- A world map with one alive tree carrying health 40, and one mature tree
carrying health 60: inputs showing that neither `applyMarkDead` nor the
mature-to-dead transition clears `treeHealth`. -/
def healthyMap : WorldStates :=
  fun id =>
    if id = 1 then some { treeStatus := .alive, treeHealth := some 40 }
    else if id = 2 then some { treeStatus := .mature, matureAt := some 0, treeHealth := some 60 }
    else none

/-- The empty world map. -/
def emptyWorldStates : WorldStates := fun _ => none

/-- A world map holding a single sapling and no pending spawn timer. -/
def noPendingMap : WorldStates :=
  fun id => if id = 1 then some { treeStatus := .sapling, treeSetAt := some 0 } else none

/-- A sapling whose maturation threshold is time `SAPLING_MATURE_MS`. -/
def dueSaplingState : WorldState := { treeStatus := .sapling, treeSetAt := some 0 }

/-- A mature tree whose death threshold is time `ALIVE_DEAD_MS`. -/
def dueMatureState : WorldState := { treeStatus := .mature, matureAt := some 0 }

/-- A pending spawn timer whose target is time 0. -/
def dueSpawnState : WorldState := { treeStatus := .none, nextSpawnTarget := some 0 }

/-! ### The wire protocol (`shared/protocol.ts`) and the validated message
type produced by `server/validation.ts`.

Raw JSON numbers are modelled as `Rat` (JS numbers for which the claims'
checks — `Number.isInteger`, range bounds, set membership — are decidable);
a validated world state therefore carries `Rat` timestamps, mirroring that
`validateWorldState` only checks the timestamps for being finite numbers. -/

/-- A world state as accepted by `validateWorldState` in
`server/validation.ts`: status plus optional finite-number timestamps,
known tree type, sanitized strings and a valid health value. -/
structure VWorldState where
  treeStatus : TreeStatus
  nextSpawnTarget : Option Rat := none
  spawnSetAt : Option Rat := none
  treeSetAt : Option Rat := none
  matureAt : Option Rat := none
  deadAt : Option Rat := none
  treeType : Option TreeType := none
  treeHint : Option String := none
  treeExactLocation : Option String := none
  treeHealth : Option Int := none
deriving DecidableEq, Repr

/-- The `ClientMessage` discriminated union of `shared/protocol.ts`: the
validated inbound messages. `contributeWorlds` is the merge-only bulk
message handled by `handleMessage` in `server/index.ts` (lines 317-327) and
documented in the repository README. Optional `msgId` values are the raw
numbers accepted by the validator. -/
inductive ClientMessage where
  | setSpawnTimer (worldId : Rat) (msFromNow : Int) (treeInfo : Option SpawnTreeInfo)
      (msgId : Option Int)
  | setTreeInfo (worldId : Rat) (info : TreeInfoPayload) (msgId : Option Int)
  | updateTreeFields (worldId : Rat) (fields : TreeFieldsPayload) (msgId : Option Int)
  | updateHealth (worldId : Rat) (health : Option Int) (msgId : Option Int)
  | markDead (worldId : Rat) (msgId : Option Int)
  | clearWorld (worldId : Rat) (msgId : Option Int)
  | initializeState (worlds : List (Int × VWorldState))
  | contributeWorlds (worlds : List (Int × VWorldState)) (msgId : Option Int)
  | ping
deriving DecidableEq, Repr

/-- Whether a `ClientMessage` is the `contributeWorlds` variant. -/
def ClientMessage.isContributeWorlds : ClientMessage → Bool
  | .contributeWorlds _ _ => true
  | _ => false

/-! ### Client delivery/replay layer (`src/hooks/useSession.ts`) -/

/-- `PendingMutation` from `useSession.ts`: the queued action together with
whether an acknowledgement timer is currently armed (`timer` holds a live
timeout handle or `null`; the real timer handle is abstracted to its
presence). -/
structure PendingMutation where
  msg : ClientMessage
  hasAckTimer : Bool
deriving DecidableEq, Repr

/-- `replayPendingMutations` from `useSession.ts` (lines 165-184), on an
open connection: iterates the old pending map in insertion order, allocates
`newId = msgIdCounter++` for each entry, sends `{...entry.msg, msgId:
newId}` (modelled as the pair `(newId, entry.msg)`), arms a fresh
acknowledgement timer and stores the entry in the new pending map under
`newId`. Returns the advanced counter, the new pending map and the sent
messages in send order. -/
def replayPendingMutations (counter : Nat) :
    List (Nat × PendingMutation) →
      Nat × List (Nat × PendingMutation) × List (Nat × ClientMessage)
  | [] => (counter, [], [])
  | (_, entry) :: rest =>
    let r := replayPendingMutations (counter + 1) rest
    (r.1,
     (counter, { msg := entry.msg, hasAckTimer := true }) :: r.2.1,
     (counter, entry.msg) :: r.2.2)

/-- `sendMutation` from `useSession.ts` (lines 425-443): allocates
`id = msgIdCounter++`; when the link is open, sends `(id, msg)` and queues
the entry with an armed acknowledgement timer; otherwise only queues it,
with no timer. -/
def sendMutation (counter : Nat) (pending : List (Nat × PendingMutation))
    (connected : Bool) (msg : ClientMessage) :
    Nat × List (Nat × PendingMutation) × Option (Nat × ClientMessage) :=
  if connected then
    (counter + 1, pending ++ [(counter, { msg := msg, hasAckTimer := true })],
     some (counter, msg))
  else
    (counter + 1, pending ++ [(counter, { msg := msg, hasAckTimer := false })],
     none)

/-- A concrete pending queue of two unacknowledged mutations, as left behind
by two disconnected `sendMutation` calls with ids 1 and 2. -/
def replayExampleQueue : List (Nat × PendingMutation) :=
  [(1, { msg := .markDead 7 (some 1), hasAckTimer := false }),
   (2, { msg := .clearWorld 8 (some 2), hasAckTimer := false })]

/-! ### Server-side message validation (`server/validation.ts`) -/

/-- A JSON-parsed JavaScript value. JS numbers appear as `Rat` (finite
doubles; `NaN`/infinities cannot result from `JSON.parse` and are not
modelled); an absent object property models `undefined`. -/
inductive JsValue where
  | vNull
  | vBool (b : Bool)
  | vNum (q : Rat)
  | vStr (s : String)
  | vArr (elems : List JsValue)
  | vObj (fields : List (String × JsValue))

/-- `isObject` from `server/validation.ts`: a non-null non-array object. -/
def isObject : JsValue → Bool
  | .vObj _ => true
  | _ => false

/-- Property access `v[key]`, `none` when absent or when `v` is not an
object (JSON objects have unique keys, so first-match lookup suffices). -/
def getField : JsValue → String → Option JsValue
  | .vObj fields, k => fields.lookup k
  | _, _ => none

/-- `type === 'lit'` on the raw `type` property. -/
def isStrEq : Option JsValue → String → Bool
  | some (.vStr s), t => s = t
  | _, _ => false

/-- A character matched by the control-character pattern of
`sanitizeString`: code points 0x00-0x1F and 0x7F. -/
def isControlChar (c : Char) : Bool :=
  c.toNat ≤ 0x1F || c.toNat = 0x7F

/-- A character removed by `String.prototype.trim`: the JS WhiteSpace and
LineTerminator code points. -/
def isJsWhitespace (c : Char) : Bool :=
  c.toNat = 0x09 || c.toNat = 0x0A || c.toNat = 0x0B || c.toNat = 0x0C ||
  c.toNat = 0x0D || c.toNat = 0x20 || c.toNat = 0xA0 || c.toNat = 0x1680 ||
  (0x2000 ≤ c.toNat && c.toNat ≤ 0x200A) || c.toNat = 0x2028 ||
  c.toNat = 0x2029 || c.toNat = 0x202F || c.toNat = 0x205F ||
  c.toNat = 0x3000 || c.toNat = 0xFEFF

/-- `s.replace(/[\x00-\x1F\x7F]/g, '')`. -/
def stripControlChars (s : String) : String :=
  ⟨s.data.filter (fun c => !isControlChar c)⟩

/-- `String.prototype.trim`: remove leading and trailing whitespace. -/
def jsTrim (s : String) : String :=
  ⟨(((s.data.dropWhile isJsWhitespace).reverse.dropWhile isJsWhitespace)).reverse⟩

/-- `MAX_STRING_LEN` from `server/validation.ts`. -/
def MAX_STRING_LEN : Nat := 200

/-- `MAX_MS_FROM_NOW` from `server/validation.ts`: 2 * 60 * 60 * 1000 ms
(2 hours), written as the literal so that the kernel can evaluate
comparisons against it. -/
def MAX_MS_FROM_NOW : Rat := 7200000

/-- `MAX_WORLDS_INITIALIZE` from `server/validation.ts`. -/
def MAX_WORLDS_INITIALIZE : Nat := 200

/-- `VALID_HEALTH_VALUES` from `server/validation.ts`: 5, 10, ..., 100. -/
def VALID_HEALTH_VALUES : List Rat :=
  (List.range 20).map (fun i => ((i : Rat) + 1) * 5)

/-- `sanitizeString` from `server/validation.ts`: `null` unless the value is
a string; strips control characters, trims, and rejects results longer than
`MAX_STRING_LEN`. The argument is the raw property value, `none` modelling
`undefined`. -/
def sanitizeString : Option JsValue → Option String
  | some (.vStr s) =>
    let clean := jsTrim (stripControlChars s)
    if clean.length > MAX_STRING_LEN then none else some clean
  | _ => none

/-- `Number.isInteger` on a finite number. -/
def isIntegerJs (q : Rat) : Bool := q.den = 1

/-- Membership in `VALID_TREE_STATUSES` combined with the cast to the status
enumeration. -/
def parseTreeStatus : String → Option TreeStatus
  | "none" => some .none
  | "sapling" => some .sapling
  | "mature" => some .mature
  | "alive" => some .alive
  | "dead" => some .dead
  | _ => none

/-- Membership in `VALID_TREE_TYPES` (the `TREE_TYPES` list of
`shared/types.ts`) combined with the cast to the tree-type enumeration. -/
def parseTreeType : String → Option TreeType
  | "sapling" => some .sapling
  | "mature" => some .mature
  | "tree" => some .tree
  | "oak" => some .oak
  | "willow" => some .willow
  | "maple" => some .maple
  | "yew" => some .yew
  | "magic" => some .magic
  | "elder" => some .elder
  | _ => none

/-- One optional finite-number timestamp field of `validateWorldState`:
`some none` when absent, `some (some q)` when a number, `none` (reject) when
present but not a number. -/
def numField (raw : JsValue) (k : String) : Option (Option Rat) :=
  match getField raw k with
  | none => some none
  | some (.vNum q) => some (some q)
  | some _ => none

/-- The optional sanitized string fields of `validateWorldState`. -/
def strFieldSanitized (raw : JsValue) (k : String) : Option (Option String) :=
  match getField raw k with
  | none => some none
  | some v =>
    match sanitizeString (some v) with
    | some c => some (some c)
    | none => none

/-- The optional `treeType` field of `validateWorldState`. -/
def treeTypeField (raw : JsValue) : Option (Option TreeType) :=
  match getField raw "treeType" with
  | none => some none
  | some (.vStr s) =>
    match parseTreeType s with
    | some t => some (some t)
    | none => none
  | some _ => none

/-- The optional `treeHealth` field of `validateWorldState`: a number in
`VALID_HEALTH_VALUES` (all of which are integers, so the numerator is the
value). -/
def healthField (raw : JsValue) : Option (Option Int) :=
  match getField raw "treeHealth" with
  | none => some none
  | some (.vNum q) =>
    if VALID_HEALTH_VALUES.contains q then some (some q.num) else none
  | some _ => none

/-- `validateWorldState` from `server/validation.ts`. `validIds` is
`VALID_WORLD_IDS.has` (the id set of `src/data/worlds.json`, a data file not
part of the source tree, hence a parameter). -/
def validateWorldState (validIds : Rat → Bool) (worldId : Int) (raw : JsValue) :
    Option VWorldState :=
  if ¬ isObject raw then none
  else if ¬ validIds (worldId : Rat) then none
  else
    match getField raw "treeStatus" with
    | some (.vStr st) =>
      match parseTreeStatus st with
      | none => none
      | some status => do
        let nst ← numField raw "nextSpawnTarget"
        let ssa ← numField raw "spawnSetAt"
        let tsa ← numField raw "treeSetAt"
        let mat ← numField raw "matureAt"
        let dad ← numField raw "deadAt"
        let tt ← treeTypeField raw
        let th ← strFieldSanitized raw "treeHint"
        let tel ← strFieldSanitized raw "treeExactLocation"
        let hp ← healthField raw
        some { treeStatus := status, nextSpawnTarget := nst, spawnSetAt := ssa,
               treeSetAt := tsa, matureAt := mat, deadAt := dad, treeType := tt,
               treeHint := th, treeExactLocation := tel, treeHealth := hp }
    | _ => none

/-- Decimal digits to the number they denote. -/
def digitsToNat (l : List Char) : Nat :=
  l.foldl (fun acc c => acc * 10 + (c.toNat - 48)) 0

/-- `Number(key)` on an object key followed by the `Number.isInteger` filter
of `validateInitializeState`, for the canonical decimal (optionally signed)
integer keys a serialized `Record<number, _>` carries; exotic coercion forms
(hex, exponent, fractional strings whose value is still integral) are not
modelled and yield `none`, i.e. the entry is skipped. `Number('')` is 0. -/
def parseIntegerKey (s : String) : Option Int :=
  match s.data with
  | [] => some 0
  | '-' :: rest =>
    if rest ≠ [] ∧ rest.all Char.isDigit then some (-(digitsToNat rest : Int)) else none
  | l => if l.all Char.isDigit then some (digitsToNat l : Int) else none

/-- The upsert `worlds[worldId] = state` on the accumulated record. -/
def insertWorld (worlds : List (Int × VWorldState)) (wid : Int)
    (st : VWorldState) : List (Int × VWorldState) :=
  if worlds.any (fun p => p.1 = wid) then
    worlds.map (fun p => if p.1 = wid then (wid, st) else p)
  else worlds ++ [(wid, st)]

/-- The loop body of `validateInitializeState`: skip entries whose key is
not an integer or whose state is invalid, and keep only active worlds. -/
def initWorldsStep (validIds : Rat → Bool) (acc : List (Int × VWorldState))
    (kv : String × JsValue) : List (Int × VWorldState) :=
  match parseIntegerKey kv.1 with
  | none => acc
  | some wid =>
    match validateWorldState validIds wid kv.2 with
    | none => acc
    | some st =>
      if st.treeStatus ≠ .none ∨ st.nextSpawnTarget ≠ none then
        insertWorld acc wid st
      else acc

/-- `validateInitializeState` from `server/validation.ts`: silently skips
entries with a non-integer key or an invalid world state, keeps only active
worlds, and fails only on a missing `worlds` object or too many entries. -/
def validateInitializeState (validIds : Rat → Bool) (raw : JsValue) :
    Except String (List (Int × VWorldState)) :=
  if ¬ isObject raw then .error "Message must be a JSON object."
  else
    match getField raw "worlds" with
    | some (.vObj entries) =>
      if entries.length > MAX_WORLDS_INITIALIZE then
        .error "Too many worlds in initializeState."
      else
        .ok (entries.foldl (initWorldsStep validIds) [])
    | _ => .error "Missing worlds object."

/-- The optional `msgId` of `validateMessage`: must be a positive integer
number when present (kept as its integer value). -/
def msgIdField (raw : JsValue) : Except String (Option Int) :=
  match getField raw "msgId" with
  | none => .ok none
  | some (.vNum q) =>
    if isIntegerJs q ∧ 0 < q then .ok (some q.num) else .error "Invalid msgId."
  | some _ => .error "Invalid msgId."

/-- The optional `treeInfo` of the `setSpawnTimer` case: a `treeHint` inside
an object value is sanitized; a non-object `treeInfo` or an absent hint
leaves the payload undefined. -/
def spawnTreeInfoField (raw : JsValue) : Except String (Option SpawnTreeInfo) :=
  match getField raw "treeInfo" with
  | some ti =>
    if isObject ti then
      match getField ti "treeHint" with
      | none => .ok none
      | some hv =>
        match sanitizeString (some hv) with
        | some clean => .ok (some { treeHint := some clean })
        | none => .error "Invalid treeHint string."
    else .ok none
  | none => .ok none

/-- The `info` payload of the `setTreeInfo` case. -/
def treeInfoPayloadField (info : JsValue) : Except String TreeInfoPayload :=
  match getField info "treeType" with
  | some (.vStr ts) =>
    match parseTreeType ts with
    | none => .error "Invalid treeType."
    | some tt =>
      match sanitizeString (getField info "treeHint") with
      | none => .error "Invalid treeHint."
      | some th =>
        match getField info "treeExactLocation" with
        | some lv =>
          match sanitizeString (some lv) with
          | none => .error "Invalid treeExactLocation."
          | some tel =>
            match getField info "treeHealth" with
            | some (.vNum q) =>
              if VALID_HEALTH_VALUES.contains q then
                .ok { treeType := tt, treeHint := th,
                      treeExactLocation := some tel, treeHealth := some q.num }
              else .error "Invalid treeHealth."
            | some _ => .error "Invalid treeHealth."
            | none =>
              .ok { treeType := tt, treeHint := th,
                    treeExactLocation := some tel, treeHealth := none }
        | none =>
          match getField info "treeHealth" with
          | some (.vNum q) =>
            if VALID_HEALTH_VALUES.contains q then
              .ok { treeType := tt, treeHint := th,
                    treeExactLocation := none, treeHealth := some q.num }
            else .error "Invalid treeHealth."
          | some _ => .error "Invalid treeHealth."
          | none =>
            .ok { treeType := tt, treeHint := th,
                  treeExactLocation := none, treeHealth := none }
  | _ => .error "Invalid treeType."

/-- The optional `treeType` block of the `updateTreeFields` case. -/
def optTypeCheck (fields : JsValue) : Except String (Option TreeType) :=
  match getField fields "treeType" with
  | none => .ok none
  | some (.vStr ts) =>
    match parseTreeType ts with
    | some tt => .ok (some tt)
    | none => .error "Invalid treeType."
  | some _ => .error "Invalid treeType."

/-- An optional sanitized-string block of the `updateTreeFields` case. -/
def optStrCheck (fields : JsValue) (k : String) (emsg : String) :
    Except String (Option String) :=
  match getField fields k with
  | none => .ok none
  | some v =>
    match sanitizeString (some v) with
    | some c => .ok (some c)
    | none => .error emsg

/-- The optional `treeHealth` block of the `updateTreeFields` case. -/
def optHealthCheck (fields : JsValue) : Except String (Option Int) :=
  match getField fields "treeHealth" with
  | none => .ok none
  | some (.vNum q) =>
    if VALID_HEALTH_VALUES.contains q then .ok (some q.num)
    else .error "Invalid treeHealth."
  | some _ => .error "Invalid treeHealth."

/-- The `fields` payload of the `updateTreeFields` case: the four optional
blocks in program order, short-circuiting on the first error. -/
def treeFieldsPayloadField (fields : JsValue) : Except String TreeFieldsPayload :=
  match optTypeCheck fields with
  | .error e => .error e
  | .ok tt =>
    match optStrCheck fields "treeHint" "Invalid treeHint." with
    | .error e => .error e
    | .ok th =>
      match optStrCheck fields "treeExactLocation" "Invalid treeExactLocation." with
      | .error e => .error e
      | .ok tel =>
        match optHealthCheck fields with
        | .error e => .error e
        | .ok hp =>
          .ok { treeType := tt, treeHint := th, treeExactLocation := tel,
                treeHealth := hp }

/-- `validateMessage` from `server/validation.ts`. `validIds` is
`VALID_WORLD_IDS.has`. The interpolated value of the unknown-type error
message is abbreviated. -/
def validateMessage (validIds : Rat → Bool) (raw : JsValue) :
    Except String ClientMessage :=
  if ¬ isObject raw then .error "Message must be a JSON object."
  else
    let type := getField raw "type"
    if isStrEq type "ping" then .ok .ping
    else if isStrEq type "initializeState" then
      match validateInitializeState validIds raw with
      | .error e => .error e
      | .ok worlds => .ok (.initializeState worlds)
    else
      match msgIdField raw with
      | .error e => .error e
      | .ok msgId =>
        match getField raw "worldId" with
        | some (.vNum wq) =>
          if ¬ validIds wq then .error "Invalid or missing worldId."
          else if isStrEq type "setSpawnTimer" then
            match getField raw "msFromNow" with
            | some (.vNum mq) =>
              if 0 < mq ∧ mq ≤ MAX_MS_FROM_NOW ∧ isIntegerJs mq then
                match spawnTreeInfoField raw with
                | .error e => .error e
                | .ok treeInfo => .ok (.setSpawnTimer wq mq.num treeInfo msgId)
              else .error "msFromNow must be a positive integer up to 2 hours."
            | _ => .error "msFromNow must be a positive integer up to 2 hours."
          else if isStrEq type "setTreeInfo" then
            match getField raw "info" with
            | some info =>
              if isObject info then
                match treeInfoPayloadField info with
                | .error e => .error e
                | .ok payload => .ok (.setTreeInfo wq payload msgId)
              else .error "Missing info object."
            | none => .error "Missing info object."
          else if isStrEq type "updateTreeFields" then
            match getField raw "fields" with
            | some fields =>
              if isObject fields then
                match treeFieldsPayloadField fields with
                | .error e => .error e
                | .ok payload => .ok (.updateTreeFields wq payload msgId)
              else .error "Missing fields object."
            | none => .error "Missing fields object."
          else if isStrEq type "updateHealth" then
            match getField raw "health" with
            | none => .ok (.updateHealth wq none msgId)
            | some (.vNum q) =>
              if VALID_HEALTH_VALUES.contains q then
                .ok (.updateHealth wq (some q.num) msgId)
              else .error "Invalid health value."
            | some _ => .error "Invalid health value."
          else if isStrEq type "markDead" then .ok (.markDead wq msgId)
          else if isStrEq type "clearWorld" then .ok (.clearWorld wq msgId)
          else .error "Unknown message type."
        | _ => .error "Invalid or missing worldId."

/-! ### The sanitization and range properties claimed of `validateMessage` -/

/-- A string as the claim requires accepted strings to be: capped at
`MAX_STRING_LEN`, free of control characters, and trimmed (neither end is
whitespace). -/
def sanitizedString (s : String) : Prop :=
  s.length ≤ MAX_STRING_LEN ∧
  (∀ c ∈ s.data, isControlChar c = false) ∧
  (∀ c, s.data.head? = some c → isJsWhitespace c = false) ∧
  (∀ c, s.data.getLast? = some c → isJsWhitespace c = false)

/-- A health value as the claim requires: a multiple of 5 within [5, 100]. -/
def healthValueOk (h : Int) : Prop := 5 ≤ h ∧ h ≤ 100 ∧ h % 5 = 0

instance (h : Int) : Decidable (healthValueOk h) := by
  unfold healthValueOk
  infer_instance

/-- Every present string of an optional string field is sanitized. -/
def optionStrOk (o : Option String) : Prop :=
  ∀ s, o = some s → sanitizedString s

/-- The string and health fields of a validated world state are sanitized
and in range. -/
def vWorldStateSanitized (st : VWorldState) : Prop :=
  optionStrOk st.treeHint ∧ optionStrOk st.treeExactLocation ∧
  (∀ h, st.treeHealth = some h → healthValueOk h)

/-- Every string field of a validated message is sanitized. -/
def msgStringsSanitized : ClientMessage → Prop
  | .setSpawnTimer _ _ treeInfo _ => optionStrOk (treeInfo.bind SpawnTreeInfo.treeHint)
  | .setTreeInfo _ info _ => sanitizedString info.treeHint ∧ optionStrOk info.treeExactLocation
  | .updateTreeFields _ fields _ => optionStrOk fields.treeHint ∧ optionStrOk fields.treeExactLocation
  | .initializeState worlds => ∀ p ∈ worlds, optionStrOk p.2.treeHint ∧ optionStrOk p.2.treeExactLocation
  | .contributeWorlds worlds _ => ∀ p ∈ worlds, optionStrOk p.2.treeHint ∧ optionStrOk p.2.treeExactLocation
  | _ => True

/-- Every health value of a validated message is a multiple of 5 in
[5, 100]. -/
def msgHealthOk : ClientMessage → Prop
  | .setTreeInfo _ info _ => ∀ h, info.treeHealth = some h → healthValueOk h
  | .updateTreeFields _ fields _ => ∀ h, fields.treeHealth = some h → healthValueOk h
  | .updateHealth _ health _ => ∀ h, health = some h → healthValueOk h
  | .initializeState worlds => ∀ p ∈ worlds, ∀ h, p.2.treeHealth = some h → healthValueOk h
  | .contributeWorlds worlds _ => ∀ p ∈ worlds, ∀ h, p.2.treeHealth = some h → healthValueOk h
  | _ => True

/-- The `msFromNow` of a validated `setSpawnTimer` is a positive integer of
at most 2 hours. -/
def msgMsFromNowOk : ClientMessage → Prop
  | .setSpawnTimer _ msFromNow _ _ => 0 < msFromNow ∧ (msFromNow : Rat) ≤ MAX_MS_FROM_NOW
  | _ => True

instance {ε α : Type} [DecidableEq ε] [DecidableEq α] : DecidableEq (Except ε α) :=
  fun x y =>
    match x, y with
    | .ok a, .ok b =>
      match decEq a b with
      | isTrue h => isTrue (by rw [h])
      | isFalse h => isFalse (fun hc => h (by cases hc; rfl))
    | .error a, .error b =>
      match decEq a b with
      | isTrue h => isTrue (by rw [h])
      | isFalse h => isFalse (fun hc => h (by cases hc; rfl))
    | .ok _, .error _ => isFalse (fun hc => by cases hc)
    | .error _, .ok _ => isFalse (fun hc => by cases hc)

/-- A raw `ping` message. -/
def pingRaw : JsValue := .vObj [("type", .vStr "ping")]

/-- A raw `setSpawnTimer` message with an untrimmed hint. -/
def spawnTimerRaw : JsValue :=
  .vObj [("type", .vStr "setSpawnTimer"), ("worldId", .vNum 1),
         ("msFromNow", .vNum 60000),
         ("treeInfo", .vObj [("treeHint", .vStr "  Near the bank ")]),
         ("msgId", .vNum 2)]

end Ectotrees

namespace Ectotrees

/-! ### Small step lemmas used throughout -/

theorem saplingMatureStep_id_of_status {s : WorldState} (now : Int)
    (h : s.treeStatus ≠ .sapling) : saplingMatureStep now s = s := by
  cases ht : s.treeSetAt <;> simp [saplingMatureStep, ht, h]

theorem saplingMatureStep_id_of_unset {s : WorldState} (now : Int)
    (h : s.treeSetAt = none) : saplingMatureStep now s = s := by
  simp [saplingMatureStep, h]

theorem matureDeadStep_id_of_status {s : WorldState} (now : Int)
    (h1 : s.treeStatus ≠ .mature) (h2 : s.treeStatus ≠ .alive) :
    matureDeadStep now s = s := by
  cases hm : s.matureAt <;> simp [matureDeadStep, hm, h1, h2]

theorem matureDeadStep_id_of_unset {s : WorldState} (now : Int)
    (h : s.matureAt = none) : matureDeadStep now s = s := by
  simp [matureDeadStep, h]

theorem deadClearStep_id_of_status {s : WorldState} (now : Int)
    (h : s.treeStatus ≠ .dead) : deadClearStep now s = s := by
  cases hd : s.deadAt <;> simp [deadClearStep, hd, h]

theorem deadClearStep_id_of_unset {s : WorldState} (now : Int)
    (h : s.deadAt = none) : deadClearStep now s = s := by
  simp [deadClearStep, h]

theorem spawnFireStep_id_of_none {s : WorldState} (now : Int)
    (h : s.nextSpawnTarget = none) : spawnFireStep now s = s := by
  simp [spawnFireStep, h]

theorem saplingMatureStep_nst (now : Int) (s : WorldState) :
    (saplingMatureStep now s).nextSpawnTarget = s.nextSpawnTarget := by
  cases ht : s.treeSetAt <;> simp [saplingMatureStep, ht] <;> split <;> simp

theorem matureDeadStep_nst_none {s : WorldState} (now : Int)
    (h : s.nextSpawnTarget = none) :
    (matureDeadStep now s).nextSpawnTarget = none := by
  cases hm : s.matureAt <;> simp [matureDeadStep, hm, h] <;> split <;> simp [h]

theorem deadClearStep_nst_none {s : WorldState} (now : Int)
    (h : s.nextSpawnTarget = none) :
    (deadClearStep now s).nextSpawnTarget = none := by
  cases hd : s.deadAt <;> simp [deadClearStep, hd, h] <;> split <;> simp [h]

theorem stepWorld_eq_of_no_spawn {s : WorldState} (now : Int)
    (h : s.nextSpawnTarget = none) :
    stepWorld now s = deadClearStep now (matureDeadStep now (saplingMatureStep now s)) := by
  unfold stepWorld
  apply spawnFireStep_id_of_none
  apply deadClearStep_nst_none
  apply matureDeadStep_nst_none
  rw [saplingMatureStep_nst]
  exact h

theorem stepWorld_nst_none {s : WorldState} (now : Int)
    (h : s.nextSpawnTarget = none) :
    (stepWorld now s).nextSpawnTarget = none := by
  rw [stepWorld_eq_of_no_spawn now h]
  apply deadClearStep_nst_none
  apply matureDeadStep_nst_none
  rw [saplingMatureStep_nst]
  exact h

theorem saplingMatureStep_fire {s : WorldState} {T now : Int}
    (ht : s.treeSetAt = some T) (hs : s.treeStatus = .sapling)
    (hle : T + SAPLING_MATURE_MS ≤ now) :
    saplingMatureStep now s =
      { s with treeStatus := .mature
               treeType := some (resolveMatureType s.treeType)
               matureAt := some (T + SAPLING_MATURE_MS) } := by
  simp [saplingMatureStep, ht, hs, hle]

theorem saplingMatureStep_id_of_early {s : WorldState} {T now : Int}
    (ht : s.treeSetAt = some T) (hlt : ¬ T + SAPLING_MATURE_MS ≤ now) :
    saplingMatureStep now s = s := by
  simp only [saplingMatureStep, ht]
  rw [if_neg]
  exact fun hc => hlt hc.2

theorem matureDeadStep_fire {s : WorldState} {M now : Int}
    (hm : s.matureAt = some M) (hs : s.treeStatus = .mature ∨ s.treeStatus = .alive)
    (hle : M + ALIVE_DEAD_MS ≤ now) :
    matureDeadStep now s =
      { s with treeStatus := .dead
               deadAt := some (M + ALIVE_DEAD_MS)
               nextSpawnTarget := none
               spawnSetAt := none } := by
  simp only [matureDeadStep, hm]
  rw [if_pos ⟨hs, hle⟩]

theorem matureDeadStep_id_of_early {s : WorldState} {M now : Int}
    (hm : s.matureAt = some M) (hlt : ¬ M + ALIVE_DEAD_MS ≤ now) :
    matureDeadStep now s = s := by
  simp only [matureDeadStep, hm]
  rw [if_neg]
  exact fun hc => hlt hc.2

theorem deadClearStep_fire {s : WorldState} {D now : Int}
    (hd : s.deadAt = some D) (hs : s.treeStatus = .dead)
    (hle : D + DEAD_CLEAR_MS ≤ now) :
    deadClearStep now s = { treeStatus := .none } := by
  simp only [deadClearStep, hd]
  rw [if_pos ⟨hs, hle⟩]

theorem deadClearStep_id_of_early {s : WorldState} {D now : Int}
    (hd : s.deadAt = some D) (hlt : ¬ D + DEAD_CLEAR_MS ≤ now) :
    deadClearStep now s = s := by
  simp only [deadClearStep, hd]
  rw [if_neg]
  exact fun hc => hlt hc.2

theorem spawnFireStep_fire {s : WorldState} {n now : Int}
    (hn : s.nextSpawnTarget = some n) (hle : n ≤ now) :
    spawnFireStep now s =
      { s with treeStatus := .sapling
               treeType := some .sapling
               treeSetAt := some n
               matureAt := some (n + SAPLING_MATURE_MS)
               nextSpawnTarget := none
               spawnSetAt := none } := by
  simp [spawnFireStep, hn, hle]

theorem spawnFireStep_id_of_early {s : WorldState} {n now : Int}
    (hn : s.nextSpawnTarget = some n) (hlt : ¬ n ≤ now) :
    spawnFireStep now s = s := by
  simp [spawnFireStep, hn, hlt]

/-! ### Composition of the per-entry pipeline across two evaluation times
(the heart of claim C1). `comp_from_dead`, `comp_from_mature` and
`comp_from_sapling` chase the cascade of fired thresholds through the dead,
mature/alive and sapling phases. -/

theorem comp_from_dead {w : WorldState} {t1 t2 : Int} (h12 : t1 ≤ t2)
    (hst : w.treeStatus = .dead) :
    deadClearStep t2 (matureDeadStep t2 (saplingMatureStep t2 (deadClearStep t1 w))) =
      deadClearStep t2 w := by
  cases hd : w.deadAt with
  | none =>
    rw [deadClearStep_id_of_unset t1 hd,
        saplingMatureStep_id_of_status t2 (by simp [hst]),
        matureDeadStep_id_of_status t2 (by simp [hst]) (by simp [hst])]
  | some D =>
    by_cases hf : D + DEAD_CLEAR_MS ≤ t1
    · rw [deadClearStep_fire hd hst hf,
          saplingMatureStep_id_of_status t2 (by decide),
          matureDeadStep_id_of_status t2 (by decide) (by decide),
          deadClearStep_id_of_status t2 (by decide),
          deadClearStep_fire hd hst (le_trans hf h12)]
    · rw [deadClearStep_id_of_early hd hf,
          saplingMatureStep_id_of_status t2 (by simp [hst]),
          matureDeadStep_id_of_status t2 (by simp [hst]) (by simp [hst])]

theorem comp_from_mature {w : WorldState} {t1 t2 : Int} (h12 : t1 ≤ t2)
    (hst : w.treeStatus = .mature ∨ w.treeStatus = .alive) :
    deadClearStep t2 (matureDeadStep t2 (saplingMatureStep t2
      (deadClearStep t1 (matureDeadStep t1 w)))) =
      deadClearStep t2 (matureDeadStep t2 w) := by
  have hnsap : w.treeStatus ≠ .sapling := by rcases hst with h | h <;> simp [h]
  have hndead : w.treeStatus ≠ .dead := by rcases hst with h | h <;> simp [h]
  cases hm : w.matureAt with
  | none =>
    rw [matureDeadStep_id_of_unset t1 hm, deadClearStep_id_of_status t1 hndead,
        saplingMatureStep_id_of_status t2 hnsap]
  | some M =>
    by_cases hf : M + ALIVE_DEAD_MS ≤ t1
    · rw [matureDeadStep_fire hm hst hf, matureDeadStep_fire hm hst (le_trans hf h12)]
      exact comp_from_dead h12 (by simp)
    · rw [matureDeadStep_id_of_early hm hf, deadClearStep_id_of_status t1 hndead,
          saplingMatureStep_id_of_status t2 hnsap]

theorem comp_from_sapling {w : WorldState} {t1 t2 : Int} (h12 : t1 ≤ t2)
    (hst : w.treeStatus = .sapling) :
    deadClearStep t2 (matureDeadStep t2 (saplingMatureStep t2
      (deadClearStep t1 (matureDeadStep t1 (saplingMatureStep t1 w))))) =
      deadClearStep t2 (matureDeadStep t2 (saplingMatureStep t2 w)) := by
  have hnmat : w.treeStatus ≠ .mature := by simp [hst]
  have hnaliv : w.treeStatus ≠ .alive := by simp [hst]
  have hndead : w.treeStatus ≠ .dead := by simp [hst]
  cases hset : w.treeSetAt with
  | none =>
    rw [saplingMatureStep_id_of_unset t1 hset,
        matureDeadStep_id_of_status t1 hnmat hnaliv,
        deadClearStep_id_of_status t1 hndead]
  | some T =>
    by_cases hf : T + SAPLING_MATURE_MS ≤ t1
    · rw [saplingMatureStep_fire hset hst hf,
          saplingMatureStep_fire hset hst (le_trans hf h12)]
      exact comp_from_mature h12 (Or.inl (by simp))
    · rw [saplingMatureStep_id_of_early hset hf,
          matureDeadStep_id_of_status t1 hnmat hnaliv,
          deadClearStep_id_of_status t1 hndead]

/-- Per-entry composition across two evaluation times, for entries with no
pending spawn timer. -/
theorem stepWorld_composes {s : WorldState} {t1 t2 : Int} (h12 : t1 ≤ t2)
    (hns : s.nextSpawnTarget = none) :
    stepWorld t2 (stepWorld t1 s) = stepWorld t2 s := by
  have hns1 : (deadClearStep t1 (matureDeadStep t1 (saplingMatureStep t1 s))).nextSpawnTarget = none := by
    apply deadClearStep_nst_none
    apply matureDeadStep_nst_none
    rw [saplingMatureStep_nst]
    exact hns
  rw [stepWorld_eq_of_no_spawn t1 hns, stepWorld_eq_of_no_spawn t2 hns1,
      stepWorld_eq_of_no_spawn t2 hns]
  cases hst : s.treeStatus
  case none =>
    rw [saplingMatureStep_id_of_status t1 (by simp [hst]),
        matureDeadStep_id_of_status t1 (by simp [hst]) (by simp [hst]),
        deadClearStep_id_of_status t1 (by simp [hst])]
  case sapling => exact comp_from_sapling h12 hst
  case mature =>
    rw [saplingMatureStep_id_of_status (s := s) t1 (by simp [hst]),
        saplingMatureStep_id_of_status (s := s) t2 (by simp [hst])]
    exact comp_from_mature h12 (Or.inl hst)
  case alive =>
    rw [saplingMatureStep_id_of_status (s := s) t1 (by simp [hst]),
        saplingMatureStep_id_of_status (s := s) t2 (by simp [hst])]
    exact comp_from_mature h12 (Or.inr hst)
  case dead =>
    rw [saplingMatureStep_id_of_status (s := s) t1 (by simp [hst]),
        matureDeadStep_id_of_status (s := s) t1 (by simp [hst]) (by simp [hst]),
        saplingMatureStep_id_of_status (s := s) t2 (by simp [hst]),
        matureDeadStep_id_of_status (s := s) t2 (by simp [hst]) (by simp [hst])]
    exact comp_from_dead h12 hst

/-! ### Claim C1 -/

/-- C1 (counterexample): the claimed identity
`applyTransitions (applyTransitions s t1) t2 = applyTransitions s t2` fails
for `s = pendingSpawnMap`, `t1 = 0 < t2 = SAPLING_MATURE_MS`: evaluating at
the intermediate time 0 fires the spawn timer, after which the sapling
matures by `t2`; direct evaluation at `t2` only fires the spawn timer
(the spawn branch is the last of the pipeline), leaving a sapling. -/
theorem applyTransitions_intermediate_time_changes_result :
    (0 : Int) < SAPLING_MATURE_MS ∧
    applyTransitions (applyTransitions pendingSpawnMap 0) SAPLING_MATURE_MS ≠
      applyTransitions pendingSpawnMap SAPLING_MATURE_MS := by
  refine ⟨by decide, fun h => ?_⟩
  exact absurd (congrFun h 1) (by decide)

/-- C1 (amended): for every world-state map `s` in which no entry carries a
pending `nextSpawnTarget`, and all times `t1 < t2`,
`applyTransitions (applyTransitions s t1) t2 = applyTransitions s t2`:
evaluating transitions at an intermediate time never changes the final
result. (The counterexample forces the exclusion of entries with a pending
spawn timer: a spawn fired at the intermediate time can advance further by
`t2`, while a single direct pass leaves the freshly spawned sapling.) -/
theorem applyTransitions_time_composable_of_no_pending (s : WorldStates) (t1 t2 : Int)
    (h12 : t1 < t2)
    (hns : ∀ id w, s id = some w → w.nextSpawnTarget = none) :
    applyTransitions (applyTransitions s t1) t2 = applyTransitions s t2 := by
  funext id
  cases h : s id with
  | none => simp [applyTransitions, h]
  | some w =>
    simp only [applyTransitions, h, Option.map_some]
    exact congrArg some (stepWorld_composes (le_of_lt h12) (hns id w h))

/-- C1 (witness): the amended composition law applied to a concrete
spawn-free map and the concrete times 0 < SAPLING_MATURE_MS. -/
theorem applyTransitions_time_composable_of_no_pending_witness :
    applyTransitions (applyTransitions noPendingMap 0) SAPLING_MATURE_MS =
      applyTransitions noPendingMap SAPLING_MATURE_MS :=
  applyTransitions_time_composable_of_no_pending noPendingMap 0 SAPLING_MATURE_MS
    (by decide)
    (by
      intro id w h
      unfold noPendingMap at h
      split at h
      · cases h; rfl
      · cases h)

/-! ### Claim C9 -/

/-- C9: `applyTransitions` never removes a world id: the output map has an
entry for exactly the ids the input has one for (the dead-to-none branch
replaces the entry with the fresh `{ treeStatus: 'none' }` record instead of
deleting the key), so a key present in the old map is never absent from the
new one. -/
theorem applyTransitions_preserves_keys (s : WorldStates) (now id : Int) :
    (applyTransitions s now id).isSome = (s id).isSome := by
  simp [applyTransitions]

/-! ### Claim C6 -/

/-- C6: `applySetSpawnTimer` maps the world id to exactly
`{treeStatus: none, nextSpawnTarget: now + msFromNow, spawnSetAt: now,
treeHint: hint}` — every other field of the fresh record is unset — and the
round trip `applySetTreeInfo` then `applySetSpawnTimer` therefore leaves no
tree type, health, location or maturity/death timestamp. -/
theorem setSpawnTimer_replaces_entry (s : WorldStates) (worldId msFromNow now : Int)
    (treeInfo : Option SpawnTreeInfo) :
    (applySetSpawnTimer s worldId msFromNow now treeInfo worldId =
       some { treeStatus := .none
              nextSpawnTarget := some (now + msFromNow)
              spawnSetAt := some now
              treeHint := treeInfo.bind SpawnTreeInfo.treeHint }) ∧
    (∀ (info : TreeInfoPayload) (t0 : Int),
       applySetSpawnTimer (applySetTreeInfo s worldId info t0) worldId msFromNow now treeInfo worldId =
         some { treeStatus := .none
                nextSpawnTarget := some (now + msFromNow)
                spawnSetAt := some now
                treeHint := treeInfo.bind SpawnTreeInfo.treeHint }) := by
  constructor
  · simp [applySetSpawnTimer]
  · intro info t0
    simp [applySetSpawnTimer]

/-! ### Claim C4 -/

/-- C4 (code behaviour at the failing input): `applyMarkDead` on world 1 of
`healthyMap` (alive, health 40) produces status dead with `deadAt = now` and
cleared spawn fields but RETAINS `treeHealth = 40`, and the automatic
mature-to-dead transition on world 2 (mature since 0, health 60) likewise
retains `treeHealth = 60` — neither clears health as the claim states. -/
theorem markDead_and_death_transition_retain_health :
    applyMarkDead healthyMap 1 1000 1 =
      some { treeStatus := .dead, treeHealth := some 40, deadAt := some 1000 } ∧
    applyTransitions healthyMap ALIVE_DEAD_MS 2 =
      some { treeStatus := .dead, matureAt := some 0,
             deadAt := some ALIVE_DEAD_MS, treeHealth := some 60 } := by
  constructor
  · decide
  · decide

/-! ### Claim C5 -/

/-- C5: every transition fired by the `applyTransitions` pipeline writes
timestamps derived only from the recorded phase-start thresholds, never from
`now`: sapling-to-mature sets `matureAt = treeSetAt + SAPLING_MATURE_MS`,
mature/alive-to-dead sets `deadAt = matureAt + ALIVE_DEAD_MS`, and a fired
spawn timer sets `treeSetAt = nextSpawnTarget` and
`matureAt = nextSpawnTarget + SAPLING_MATURE_MS`; hence each branch produces
the identical state at any two times at which it is due. -/
theorem transition_values_from_recorded_thresholds (s : WorldState) (t1 t2 : Int) :
    (∀ t, s.treeSetAt = some t → s.treeStatus = .sapling →
       t + SAPLING_MATURE_MS ≤ t1 → t + SAPLING_MATURE_MS ≤ t2 →
       saplingMatureStep t1 s = saplingMatureStep t2 s ∧
       (saplingMatureStep t1 s).matureAt = some (t + SAPLING_MATURE_MS)) ∧
    (∀ m, s.matureAt = some m → (s.treeStatus = .mature ∨ s.treeStatus = .alive) →
       m + ALIVE_DEAD_MS ≤ t1 → m + ALIVE_DEAD_MS ≤ t2 →
       matureDeadStep t1 s = matureDeadStep t2 s ∧
       (matureDeadStep t1 s).deadAt = some (m + ALIVE_DEAD_MS)) ∧
    (∀ n, s.nextSpawnTarget = some n → n ≤ t1 → n ≤ t2 →
       spawnFireStep t1 s = spawnFireStep t2 s ∧
       (spawnFireStep t1 s).treeSetAt = some n ∧
       (spawnFireStep t1 s).matureAt = some (n + SAPLING_MATURE_MS)) := by
  refine ⟨?_, ?_, ?_⟩
  · intro t ht hs h1 h2
    rw [saplingMatureStep_fire ht hs h1, saplingMatureStep_fire ht hs h2]
    exact ⟨rfl, by simp⟩
  · intro m hm hs h1 h2
    rw [matureDeadStep_fire hm hs h1, matureDeadStep_fire hm hs h2]
    exact ⟨rfl, by simp⟩
  · intro n hn h1 h2
    rw [spawnFireStep_fire hn h1, spawnFireStep_fire hn h2]
    exact ⟨rfl, by simp, by simp⟩

/-- C5 (witness): the threshold-derived transition values at the concrete
states `dueSaplingState`, `dueMatureState` and `dueSpawnState`, each due at
two different concrete times. -/
theorem transition_values_from_recorded_thresholds_witness :
    (saplingMatureStep SAPLING_MATURE_MS dueSaplingState =
       saplingMatureStep (SAPLING_MATURE_MS + 9) dueSaplingState ∧
     (saplingMatureStep SAPLING_MATURE_MS dueSaplingState).matureAt =
       some (0 + SAPLING_MATURE_MS)) ∧
    (matureDeadStep ALIVE_DEAD_MS dueMatureState =
       matureDeadStep (ALIVE_DEAD_MS + 9) dueMatureState ∧
     (matureDeadStep ALIVE_DEAD_MS dueMatureState).deadAt =
       some (0 + ALIVE_DEAD_MS)) ∧
    (spawnFireStep 0 dueSpawnState = spawnFireStep 9 dueSpawnState ∧
     (spawnFireStep 0 dueSpawnState).treeSetAt = some 0 ∧
     (spawnFireStep 0 dueSpawnState).matureAt = some (0 + SAPLING_MATURE_MS)) :=
  ⟨(transition_values_from_recorded_thresholds dueSaplingState SAPLING_MATURE_MS
      (SAPLING_MATURE_MS + 9)).1 0 rfl rfl (by decide) (by decide),
   (transition_values_from_recorded_thresholds dueMatureState ALIVE_DEAD_MS
      (ALIVE_DEAD_MS + 9)).2.1 0 rfl (Or.inl rfl) (by decide) (by decide),
   (transition_values_from_recorded_thresholds dueSpawnState 0 9).2.2 0 rfl
      (by decide) (by decide)⟩

/-! ### Claim C3 -/

theorem stepWorld_preserves_exclusive {w : WorldState} (now : Int)
    (hw : spawnTreeExclusive w) : spawnTreeExclusive (stepWorld now w) := by
  cases hn : w.nextSpawnTarget with
  | none =>
    have h := stepWorld_nst_none now hn
    exact ⟨by simp [h], fun _ => h⟩
  | some target =>
    have hstat : w.treeStatus = .none := hw.1 (by simp [hn])
    have e1 : saplingMatureStep now w = w :=
      saplingMatureStep_id_of_status now (by simp [hstat])
    have e2 : matureDeadStep now w = w :=
      matureDeadStep_id_of_status now (by simp [hstat]) (by simp [hstat])
    have e3 : deadClearStep now w = w :=
      deadClearStep_id_of_status now (by simp [hstat])
    unfold stepWorld
    rw [e1, e2, e3]
    by_cases hf : target ≤ now
    · rw [spawnFireStep_fire hn hf]
      exact ⟨by simp, fun _ => by simp⟩
    · rw [spawnFireStep_id_of_early hn hf]
      exact hw

/-- C3: every mutator of `shared/mutations.ts` preserves, entry by entry,
the mutual exclusion of a pending `nextSpawnTarget` and an active tree phase
(any `treeStatus` other than `none`), assuming every entry of the input map
satisfies it. -/
theorem mutators_preserve_spawn_exclusion (s : WorldStates)
    (hs : ∀ id w, s id = some w → spawnTreeExclusive w) :
    (∀ worldId msFromNow now treeInfo id w,
       applySetSpawnTimer s worldId msFromNow now treeInfo id = some w →
       spawnTreeExclusive w) ∧
    (∀ worldId info now id w,
       applySetTreeInfo s worldId info now id = some w → spawnTreeExclusive w) ∧
    (∀ worldId fields id w,
       applyUpdateTreeFields s worldId fields id = some w → spawnTreeExclusive w) ∧
    (∀ worldId health id w,
       applyUpdateHealth s worldId health id = some w → spawnTreeExclusive w) ∧
    (∀ worldId now id w,
       applyMarkDead s worldId now id = some w → spawnTreeExclusive w) ∧
    (∀ worldId id w,
       applyClearWorld s worldId id = some w → spawnTreeExclusive w) ∧
    (∀ now id w,
       applyTransitions s now id = some w → spawnTreeExclusive w) := by
  refine ⟨?_, ?_, ?_, ?_, ?_, ?_, ?_⟩
  · intro worldId msFromNow now treeInfo id w h
    unfold applySetSpawnTimer at h
    split at h
    · cases h
      exact ⟨fun _ => rfl, fun hne => absurd rfl hne⟩
    · exact hs id w h
  · intro worldId info now id w h
    unfold applySetTreeInfo at h
    split at h
    · cases h
      exact ⟨by simp, fun _ => rfl⟩
    · exact hs id w h
  · intro worldId fields id w h
    unfold applyUpdateTreeFields at h
    cases hcur : s worldId with
    | none =>
      rw [hcur] at h
      exact hs id w h
    | some current =>
      rw [hcur] at h
      simp only [] at h
      split at h
      · cases h
        have hex := hs worldId current hcur
        constructor
        · intro hsome
          have hcn : current.treeStatus = .none := hex.1 hsome
          cases hft : fields.treeType with
          | none => simpa [hft] using hcn
          | some t =>
            simp only [hft]
            rw [if_neg]
            · exact hcn
            · rintro ⟨-, hc | hc⟩ <;> rw [hcn] at hc <;> cases hc
        · intro hne
          by_cases hcn : current.nextSpawnTarget = none
          · exact hcn
          · exfalso
            have hstat : current.treeStatus = .none :=
              hex.1 (Option.isSome_iff_ne_none.mpr hcn)
            apply hne
            cases hft : fields.treeType with
            | none => simpa [hft] using hstat
            | some t =>
              simp only [hft]
              rw [if_neg]
              · exact hstat
              · rintro ⟨-, hc | hc⟩ <;> rw [hstat] at hc <;> cases hc
      · exact hs id w h
  · intro worldId health id w h
    unfold applyUpdateHealth at h
    cases hcur : s worldId with
    | none =>
      rw [hcur] at h
      exact hs id w h
    | some current =>
      rw [hcur] at h
      simp only [] at h
      split at h
      · cases h
        have hex := hs worldId current hcur
        exact ⟨fun hsome => hex.1 hsome, fun hne => hex.2 hne⟩
      · exact hs id w h
  · intro worldId now id w h
    unfold applyMarkDead at h
    split at h
    · cases h
      exact ⟨by simp, fun _ => rfl⟩
    · exact hs id w h
  · intro worldId id w h
    unfold applyClearWorld at h
    split at h
    · cases h
    · exact hs id w h
  · intro now id w h
    unfold applyTransitions at h
    cases hsid : s id with
    | none => rw [hsid] at h; cases h
    | some v =>
      rw [hsid] at h
      cases h
      exact stepWorld_preserves_exclusive now (hs id v hsid)

/-- C3 (witness): the preservation theorem applied to the empty map and the
`applyMarkDead` mutator at world 1, time 5. -/
theorem mutators_preserve_spawn_exclusion_witness :
    spawnTreeExclusive { treeStatus := .dead, deadAt := some 5 } :=
  (mutators_preserve_spawn_exclusion emptyWorldStates
      (fun _ _ h => nomatch h)).2.2.2.2.1 1 5 1
    { treeStatus := .dead, deadAt := some 5 } rfl

/-! ### Claim C2
The only difference between the shared and the client pipeline is the
handling of `treeType`: both `eraseTreeType`-project onto the same function
of the `treeType`-erased input. -/

theorem erase_saplingMatureStep (t : Int) (s : WorldState) :
    eraseTreeType (saplingMatureStep t s) =
      clientSaplingMatureStep t (eraseTreeType s) := by
  cases ht : s.treeSetAt <;>
    simp only [saplingMatureStep, clientSaplingMatureStep, eraseTreeType, ht] <;>
    split <;> simp [ht]

theorem erase_clientSaplingMatureStep (t : Int) (s : WorldState) :
    eraseTreeType (clientSaplingMatureStep t s) =
      clientSaplingMatureStep t (eraseTreeType s) := by
  cases ht : s.treeSetAt <;>
    simp only [clientSaplingMatureStep, eraseTreeType, ht] <;>
    split <;> simp [ht]

theorem erase_matureDeadStep (t : Int) (s : WorldState) :
    eraseTreeType (matureDeadStep t s) = matureDeadStep t (eraseTreeType s) := by
  cases hm : s.matureAt <;>
    simp only [matureDeadStep, eraseTreeType, hm] <;>
    split <;> simp [hm]

theorem erase_deadClearStep (t : Int) (s : WorldState) :
    eraseTreeType (deadClearStep t s) = deadClearStep t (eraseTreeType s) := by
  cases hd : s.deadAt <;>
    simp only [deadClearStep, eraseTreeType, hd] <;>
    split <;> simp [hd]

theorem erase_spawnFireStep (t : Int) (s : WorldState) :
    eraseTreeType (spawnFireStep t s) = clientSpawnFireStep t (eraseTreeType s) := by
  cases hn : s.nextSpawnTarget <;>
    simp only [spawnFireStep, clientSpawnFireStep, eraseTreeType, hn] <;>
    split <;> simp [hn]

theorem erase_clientSpawnFireStep (t : Int) (s : WorldState) :
    eraseTreeType (clientSpawnFireStep t s) =
      clientSpawnFireStep t (eraseTreeType s) := by
  cases hn : s.nextSpawnTarget <;>
    simp only [clientSpawnFireStep, eraseTreeType, hn] <;>
    split <;> simp [hn]

theorem erase_stepWorld (t : Int) (s : WorldState) :
    eraseTreeType (stepWorld t s) = eraseTreeType (clientStepWorld t s) := by
  unfold stepWorld clientStepWorld
  rw [erase_spawnFireStep, erase_deadClearStep, erase_matureDeadStep,
      erase_saplingMatureStep, erase_clientSpawnFireStep, erase_deadClearStep,
      erase_matureDeadStep, erase_clientSaplingMatureStep]

/-- C2 (counterexample): the client-side and the shared `applyTransitions`
differ on `genericSaplingMap` at time `SAPLING_MATURE_MS`: the shared
applier resolves the maturing generic sapling's type to `mature`, the client
applier leaves it `sapling`; the lifecycle state machine is therefore not
replicated identically. -/
theorem client_and_shared_appliers_differ :
    clientApplyTransitions genericSaplingMap SAPLING_MATURE_MS ≠
      applyTransitions genericSaplingMap SAPLING_MATURE_MS :=
  fun h => absurd (congrFun h 1) (by decide)

/-- C2 (amended): the client-side `applyTransitions` of
`useWorldStates.ts` and the shared `applyTransitions` of
`shared/mutations.ts` compute the same output map on every input map and
time except possibly in the `treeType` field of each entry: after erasing
`treeType`, the two outputs are identical. (The counterexample forces the
exception: the client applier neither resolves `treeType` on the
sapling-to-mature transition nor sets it when a spawn timer fires.) -/
theorem client_applier_refines_shared_up_to_treeType (states : WorldStates)
    (now : Int) :
    (fun id => (clientApplyTransitions states now id).map eraseTreeType) =
      (fun id => (applyTransitions states now id).map eraseTreeType) := by
  funext id
  cases h : states id with
  | none => simp [clientApplyTransitions, applyTransitions, h]
  | some w =>
    simp only [clientApplyTransitions, applyTransitions, h, Option.map_some]
    exact congrArg some (erase_stepWorld now w).symm

/-! ### Claim C7 -/

theorem replayPendingMutations_core (old : List (Nat × PendingMutation)) :
    ∀ counter,
    (replayPendingMutations counter old).2.2.map Prod.snd =
      old.map (fun e => e.2.msg) ∧
    (replayPendingMutations counter old).2.2.map Prod.fst =
      List.range' counter old.length ∧
    (replayPendingMutations counter old).1 = counter + old.length ∧
    (replayPendingMutations counter old).2.1 =
      (replayPendingMutations counter old).2.2.map
        (fun p => (p.1, { msg := p.2, hasAckTimer := true })) := by
  induction old with
  | nil => intro counter; simp [replayPendingMutations]
  | cons head rest ih =>
    intro counter
    obtain ⟨i, entry⟩ := head
    obtain ⟨h1, h2, h3, h4⟩ := ih (counter + 1)
    refine ⟨?_, ?_, ?_, ?_⟩ <;>
      simp [replayPendingMutations, h1, h2, h3, h4, List.range'_succ] <;>
      omega

/-- C7: on a new successful connection, `replayPendingMutations` re-sends
every still-unacknowledged queued mutation exactly once, in the original
send order; each re-send is tagged with a freshly allocated msgId strictly
larger than every id of the old queue (assuming, as `sendMutation`
guarantees, that every old id was allocated below the counter), the new ids
strictly increase, each re-queued entry has a fresh acknowledgement timer
armed, and afterwards the pending queue contains exactly the re-sent
mutations under their new ids. -/
theorem replayPendingMutations_spec (counter : Nat)
    (old : List (Nat × PendingMutation))
    (hfresh : ∀ oldId ∈ old.map Prod.fst, oldId < counter) :
    ((replayPendingMutations counter old).2.2.map Prod.snd =
       old.map (fun e => e.2.msg)) ∧
    ((replayPendingMutations counter old).2.1 =
       (replayPendingMutations counter old).2.2.map
         (fun p => (p.1, { msg := p.2, hasAckTimer := true }))) ∧
    List.Pairwise (· < ·)
      ((replayPendingMutations counter old).2.2.map Prod.fst) ∧
    (∀ newId ∈ (replayPendingMutations counter old).2.2.map Prod.fst,
       ∀ oldId ∈ old.map Prod.fst, oldId < newId) ∧
    (replayPendingMutations counter old).1 = counter + old.length := by
  obtain ⟨h1, h2, h3, h4⟩ := replayPendingMutations_core old counter
  refine ⟨h1, h4, ?_, ?_, h3⟩
  · rw [h2]
    exact List.pairwise_lt_range' counter old.length
  · intro newId hnew oldId hold
    rw [h2] at hnew
    exact lt_of_lt_of_le (hfresh oldId hold) ((List.mem_range'_1).1 hnew).1

/-! ### Soundness of the sanitizer and of the field validators -/

theorem head?_dropWhile_false (p : α → Bool) (l : List α) {c : α}
    (h : (l.dropWhile p).head? = some c) : p c = false := by
  induction l with
  | nil => simp [List.dropWhile] at h
  | cons a t ih =>
    rw [List.dropWhile] at h
    cases hpa : p a with
    | true =>
      rw [hpa] at h
      exact ih h
    | false =>
      rw [hpa] at h
      simp only [List.head?_cons, Option.some.injEq] at h
      rw [← h]
      exact hpa

theorem sanitizedString_of_sanitizeString {v : Option JsValue} {s : String}
    (h : sanitizeString v = some s) : sanitizedString s := by
  match v with
  | none => cases h
  | some (.vNull) => cases h
  | some (.vBool b) => cases h
  | some (.vNum q) => cases h
  | some (.vArr es) => cases h
  | some (.vObj fs) => cases h
  | some (.vStr str) =>
    simp only [sanitizeString] at h
    split at h
    · cases h
    case isFalse hlen =>
      cases h
      refine ⟨Nat.le_of_not_lt hlen, ?_, ?_, ?_⟩
      · intro c hc
        have h1 : c ∈ ((stripControlChars str).data.dropWhile isJsWhitespace).reverse.dropWhile isJsWhitespace := by
          simpa [jsTrim] using hc
        have h2 : c ∈ (stripControlChars str).data :=
          (List.dropWhile_suffix isJsWhitespace).sublist.subset
            (by
              have h3 : c ∈ ((stripControlChars str).data.dropWhile isJsWhitespace).reverse :=
                (List.dropWhile_suffix isJsWhitespace).sublist.subset h1
              simpa using h3)
        have h4 : c ∈ str.data ∧ isControlChar c = false := by
          simpa [stripControlChars] using h2
        exact h4.2
      · intro c hc
        have hy : (((stripControlChars str).data.dropWhile isJsWhitespace).reverse.dropWhile isJsWhitespace).getLast? = some c := by
          rw [← List.head?_reverse]
          simpa [jsTrim] using hc
        obtain ⟨t, ht⟩ :=
          List.dropWhile_suffix (l := ((stripControlChars str).data.dropWhile isJsWhitespace).reverse) isJsWhitespace
        have hyne : ((stripControlChars str).data.dropWhile isJsWhitespace).reverse.dropWhile isJsWhitespace ≠ [] := by
          intro hnil
          rw [hnil] at hy
          cases hy
        have hlast : (((stripControlChars str).data.dropWhile isJsWhitespace).reverse).getLast? = some c := by
          rw [← ht, List.getLast?_append_of_ne_nil t hyne]
          exact hy
        rw [List.getLast?_reverse] at hlast
        exact head?_dropWhile_false isJsWhitespace _ hlast
      · intro c hc
        have hy : (((stripControlChars str).data.dropWhile isJsWhitespace).reverse.dropWhile isJsWhitespace).head? = some c := by
          rw [← List.getLast?_reverse]
          simpa [jsTrim] using hc
        exact head?_dropWhile_false isJsWhitespace _ hy

theorem VALID_HEALTH_VALUES_eq :
    VALID_HEALTH_VALUES =
      [5, 10, 15, 20, 25, 30, 35, 40, 45, 50,
       55, 60, 65, 70, 75, 80, 85, 90, 95, 100] := by
  simp [VALID_HEALTH_VALUES, List.range_succ]
  norm_num

theorem healthValueOk_of_contains {q : Rat}
    (h : VALID_HEALTH_VALUES.contains q = true) : healthValueOk q.num := by
  have hm : q ∈ VALID_HEALTH_VALUES := by simpa using h
  rw [VALID_HEALTH_VALUES_eq] at hm
  fin_cases hm <;> decide

theorem optionStrOk_none : optionStrOk none :=
  fun s hs => nomatch hs

theorem healthOk_of_none : ∀ hv : Int, (none : Option Int) = some hv → healthValueOk hv := by
  intro hv hh
  cases hh

theorem strFieldSanitized_sound {raw : JsValue} {k : String} {o : Option String}
    (h : strFieldSanitized raw k = some o) : optionStrOk o := by
  unfold strFieldSanitized at h
  split at h
  · cases h
    exact optionStrOk_none
  · split at h
    case h_1 c hc =>
      cases h
      intro s hs
      cases hs
      exact sanitizedString_of_sanitizeString hc
    case h_2 => cases h

theorem healthField_sound {raw : JsValue} {o : Option Int}
    (h : healthField raw = some o) : ∀ hv, o = some hv → healthValueOk hv := by
  unfold healthField at h
  split at h
  · cases h
    intro hv hh
    cases hh
  case h_2 q =>
    split at h
    case isTrue hmem =>
      cases h
      intro hv hh
      cases hh
      exact healthValueOk_of_contains hmem
    case isFalse => cases h
  case h_3 => cases h

theorem validateWorldState_sound {validIds : Rat → Bool} {wid : Int}
    {raw : JsValue} {st : VWorldState}
    (h : validateWorldState validIds wid raw = some st) :
    vWorldStateSanitized st := by
  unfold validateWorldState at h
  split at h
  · cases h
  split at h
  · cases h
  split at h
  case h_1 stStr =>
    split at h
    case h_1 => cases h
    case h_2 status hstatus =>
      simp only [bind, Option.bind_eq_some, Option.some.injEq] at h
      obtain ⟨nst, hnst, ssa, hssa, tsa, htsa, mat, hmat, dad, hdad,
              tt, htt, th, hth, tel, htel, hp, hhp, hfin⟩ := h
      rw [← hfin]
      exact ⟨strFieldSanitized_sound hth, strFieldSanitized_sound htel,
             healthField_sound hhp⟩
  case h_2 => cases h

theorem insertWorld_mem {worlds : List (Int × VWorldState)} {wid : Int}
    {st : VWorldState} {p : Int × VWorldState}
    (h : p ∈ insertWorld worlds wid st) : p ∈ worlds ∨ p.2 = st := by
  unfold insertWorld at h
  split at h
  · obtain ⟨p0, hp0, hmap⟩ := List.mem_map.mp h
    by_cases hid : p0.1 = wid
    · right
      rw [if_pos hid] at hmap
      rw [← hmap]
    · left
      rw [if_neg hid] at hmap
      rw [← hmap]
      exact hp0
  · rcases List.mem_append.mp h with hmem | hmem
    · left
      exact hmem
    · right
      simp only [List.mem_singleton] at hmem
      rw [hmem]

theorem initWorldsStep_sound {validIds : Rat → Bool}
    {acc : List (Int × VWorldState)} {kv : String × JsValue}
    (hacc : ∀ p ∈ acc, vWorldStateSanitized p.2) :
    ∀ p ∈ initWorldsStep validIds acc kv, vWorldStateSanitized p.2 := by
  intro p hp
  unfold initWorldsStep at hp
  split at hp
  · exact hacc p hp
  split at hp
  · exact hacc p hp
  case h_2 st hst =>
    split at hp
    · rcases insertWorld_mem hp with hmem | heq
      · exact hacc p hmem
      · rw [heq]
        exact validateWorldState_sound hst
    · exact hacc p hp

theorem initFold_sound (validIds : Rat → Bool) (entries : List (String × JsValue)) :
    ∀ acc, (∀ p ∈ acc, vWorldStateSanitized p.2) →
      ∀ p ∈ entries.foldl (initWorldsStep validIds) acc, vWorldStateSanitized p.2 := by
  induction entries with
  | nil => intro acc hacc; simpa using hacc
  | cons kv rest ih =>
    intro acc hacc
    simp only [List.foldl_cons]
    exact ih (initWorldsStep validIds acc kv) (initWorldsStep_sound hacc)

theorem validateInitializeState_sound {validIds : Rat → Bool} {raw : JsValue}
    {worlds : List (Int × VWorldState)}
    (h : validateInitializeState validIds raw = .ok worlds) :
    ∀ p ∈ worlds, vWorldStateSanitized p.2 := by
  unfold validateInitializeState at h
  split at h
  · cases h
  split at h
  case h_1 heq =>
    rename_i entries
    split at h
    · cases h
    · cases h
      exact initFold_sound validIds entries [] (by intro p hp; cases hp)
  case h_2 => cases h

theorem spawnTreeInfoField_sound {raw : JsValue} {ti : Option SpawnTreeInfo}
    (h : spawnTreeInfoField raw = .ok ti) :
    optionStrOk (ti.bind SpawnTreeInfo.treeHint) := by
  unfold spawnTreeInfoField at h
  split at h
  case h_1 tiv =>
    split at h
    · split at h
      · cases h
        exact optionStrOk_none
      · split at h
        case h_1 clean hclean =>
          cases h
          intro s hs
          cases hs
          exact sanitizedString_of_sanitizeString hclean
        case h_2 => cases h
    · cases h
      exact optionStrOk_none
  case h_2 =>
    cases h
    exact optionStrOk_none

theorem treeInfoPayloadField_sound {info : JsValue} {p : TreeInfoPayload}
    (h : treeInfoPayloadField info = .ok p) :
    sanitizedString p.treeHint ∧ optionStrOk p.treeExactLocation ∧
    (∀ hv, p.treeHealth = some hv → healthValueOk hv) := by
  unfold treeInfoPayloadField at h
  repeat' split at h
  all_goals try cases h
  all_goals
    refine ⟨sanitizedString_of_sanitizeString (by assumption), ?_, ?_⟩
  all_goals try (refine (fun s hs => ?_); cases hs; exact sanitizedString_of_sanitizeString (by assumption))
  all_goals try (refine (fun hv hh => ?_); cases hh; exact healthValueOk_of_contains (by assumption))
  all_goals try exact optionStrOk_none
  all_goals exact healthOk_of_none

theorem optStrCheck_sound {fields : JsValue} {k emsg : String} {o : Option String}
    (h : optStrCheck fields k emsg = .ok o) : optionStrOk o := by
  unfold optStrCheck at h
  split at h
  · cases h
    exact optionStrOk_none
  · split at h
    case h_1 c hc =>
      cases h
      intro s hs
      cases hs
      exact sanitizedString_of_sanitizeString hc
    case h_2 => cases h

theorem optHealthCheck_sound {fields : JsValue} {o : Option Int}
    (h : optHealthCheck fields = .ok o) :
    ∀ hv, o = some hv → healthValueOk hv := by
  unfold optHealthCheck at h
  split at h
  · cases h
    exact healthOk_of_none
  case h_2 =>
    split at h
    case isTrue hmem =>
      cases h
      intro hv hh
      cases hh
      exact healthValueOk_of_contains hmem
    case isFalse => cases h
  case h_3 => cases h

theorem treeFieldsPayloadField_sound {fields : JsValue} {p : TreeFieldsPayload}
    (h : treeFieldsPayloadField fields = .ok p) :
    optionStrOk p.treeHint ∧ optionStrOk p.treeExactLocation ∧
    (∀ hv, p.treeHealth = some hv → healthValueOk hv) := by
  unfold treeFieldsPayloadField at h
  repeat' split at h
  all_goals try cases h
  refine ⟨?_, ?_, ?_⟩
  · exact optStrCheck_sound (by assumption)
  · exact optStrCheck_sound (by assumption)
  · exact optHealthCheck_sound (by assumption)

theorem msFromNowOk_of_cond {mq : Rat}
    (hc : 0 < mq ∧ mq ≤ MAX_MS_FROM_NOW ∧ isIntegerJs mq = true) :
    0 < mq.num ∧ (mq.num : Rat) ≤ MAX_MS_FROM_NOW := by
  obtain ⟨h1, h2, h3⟩ := hc
  refine ⟨Rat.num_pos.mpr h1, ?_⟩
  rw [Rat.coe_int_num_of_den_eq_one (by simpa [isIntegerJs] using h3)]
  exact h2

/-! ### Claim C8 -/

/-- C8: `validateMessage` accepts a health value only if it is a multiple of
5 within [5, 100], accepts `msFromNow` only if it is a positive integer of
at most 2 hours, and every string field of an accepted message has been
trimmed, had control characters stripped, and is capped at the fixed length
of `MAX_STRING_LEN` (200) characters; every other inbound value in these
positions yields an error result. -/
theorem validateMessage_accepts_only_sanitized_values (validIds : Rat → Bool)
    (raw : JsValue) (m : ClientMessage)
    (h : validateMessage validIds raw = .ok m) :
    msgStringsSanitized m ∧ msgHealthOk m ∧ msgMsFromNowOk m := by
  simp only [validateMessage] at h
  repeat' split at h
  all_goals try cases h
  all_goals try exact ⟨trivial, trivial, trivial⟩
  all_goals refine ⟨?_, ?_, ?_⟩
  all_goals try exact trivial
  all_goals try exact spawnTreeInfoField_sound (by assumption)
  all_goals try exact (fun p hp => ⟨(validateInitializeState_sound (by assumption) p hp).1, (validateInitializeState_sound (by assumption) p hp).2.1⟩)
  all_goals try exact (fun p hp => (validateInitializeState_sound (by assumption) p hp).2.2)
  all_goals try exact ⟨(treeInfoPayloadField_sound (by assumption)).1, (treeInfoPayloadField_sound (by assumption)).2.1⟩
  all_goals try exact (treeInfoPayloadField_sound (by assumption)).2.2
  all_goals try exact ⟨(treeFieldsPayloadField_sound (by assumption)).1, (treeFieldsPayloadField_sound (by assumption)).2.1⟩
  all_goals try exact (treeFieldsPayloadField_sound (by assumption)).2.2
  all_goals try exact msFromNowOk_of_cond (by assumption)
  all_goals try exact healthOk_of_none
  all_goals (refine (fun hv hh => ?_); cases hh; exact healthValueOk_of_contains (by assumption))

/-- C8 (witness): the sanitization guarantees on the message accepted from
the concrete raw `setSpawnTimer` input with an untrimmed hint. -/
theorem validateMessage_accepts_only_sanitized_values_witness :
    msgStringsSanitized
      (.setSpawnTimer 1 60000 (some { treeHint := some "Near the bank" }) (some 2)) ∧
    msgHealthOk
      (.setSpawnTimer 1 60000 (some { treeHint := some "Near the bank" }) (some 2)) ∧
    msgMsFromNowOk
      (.setSpawnTimer 1 60000 (some { treeHint := some "Near the bank" }) (some 2)) :=
  validateMessage_accepts_only_sanitized_values (fun _ => true) spawnTimerRaw
    (.setSpawnTimer 1 60000 (some { treeHint := some "Near the bank" }) (some 2))
    (by decide)

/-! ### Claim C10 -/

/-- C10: `validateMessage` never returns a message of type
`contributeWorlds` (the validator has no case for it, so such a message
falls through to the unknown-type error); consequently the
`contributeWorlds` handler branch of `handleMessage` in `server/index.ts`,
which is only reached with `validateMessage` output, is unreachable. -/
theorem validateMessage_never_contributeWorlds (validIds : Rat → Bool)
    (raw : JsValue) (m : ClientMessage)
    (h : validateMessage validIds raw = .ok m) :
    m.isContributeWorlds = false := by
  simp only [validateMessage] at h
  repeat' split at h
  all_goals try cases h
  all_goals rfl

/-- C10 (witness): the contributeWorlds-freeness of the validated concrete
`ping` message. -/
theorem validateMessage_never_contributeWorlds_witness :
    ClientMessage.isContributeWorlds .ping = false :=
  validateMessage_never_contributeWorlds (fun _ => true) pingRaw .ping (by rfl)

/-- C7 (witness): the replay contract evaluated on the concrete queue
`replayExampleQueue` with the counter at 3. -/
theorem replayPendingMutations_spec_witness :
    ((replayPendingMutations 3 replayExampleQueue).2.2.map Prod.snd =
       replayExampleQueue.map (fun e => e.2.msg)) ∧
    ((replayPendingMutations 3 replayExampleQueue).2.1 =
       (replayPendingMutations 3 replayExampleQueue).2.2.map
         (fun p => (p.1, { msg := p.2, hasAckTimer := true }))) ∧
    List.Pairwise (· < ·)
      ((replayPendingMutations 3 replayExampleQueue).2.2.map Prod.fst) ∧
    (∀ newId ∈ (replayPendingMutations 3 replayExampleQueue).2.2.map Prod.fst,
       ∀ oldId ∈ replayExampleQueue.map Prod.fst, oldId < newId) ∧
    (replayPendingMutations 3 replayExampleQueue).1 = 3 + replayExampleQueue.length :=
  replayPendingMutations_spec 3 replayExampleQueue (by decide)

end Ectotrees

